import Mathlib

/-!
# Verification of the DevOps deployment harness

Shallow embedding of the repository's shell scripts:

* `scripts/deploy.sh` — the Rollout Executor with its inline Health
  Verifier (pull → write override → compose up → poll `/health` →
  diagnostics/exit 1 on failure, `docker image prune -f` on success).
* `build-and-push.sh` — the Image Publisher (env validation, tag
  resolution, service enumeration, per-service image naming, build,
  login, sequential pushes, optional workflow-file patching, cleanup
  of the transient override manifest).
* the strict `deploy.sh` variant — adds a two-pass supersession step
  (stop/remove containers matched by host port 8080 or by image
  ancestry, each removal guarded by `|| true`).

External commands (docker, curl, git, date) are modelled by outcome
parameters in an environment record; `set -euo pipefail` is modelled by
aborting with exit code 1 at the first unguarded failing step (bash
propagates the failing command's status, which is some non-zero code;
we use 1).  Strings are modelled as Lean `String`s, i.e. lists of
characters, which matches the scripts' byte-level text processing on
ASCII data.
-/

/-- Actions performed by the scripts, recorded as a trace.  `getHealth k`
is the k-th GET issued by the health-check loop (1-based);
`stopTry`/`rmTry` record a `docker stop`/`docker rm -f` on a named
container together with whether the underlying command succeeded (both
are guarded by `|| true` in the script, so the flag is log-only). -/
inductive Act where
  | pull (image : String)
  | writeOverride
  | stopTry (name : String) (ok : Bool)
  | rmTry (name : String) (ok : Bool)
  | composeDown
  | composeUp
  | getHealth (k : Nat)
  | dumpPs
  | dumpLogs (tail : Nat)
  | prune
deriving DecidableEq, Repr

/-- `HEALTH_RETRIES` from `scripts/deploy.sh`. -/
def HEALTH_RETRIES : Nat := 15

/-- `HEALTH_WAIT` (seconds between attempts) from `scripts/deploy.sh`. -/
def HEALTH_WAIT : Nat := 2

/-- One iteration burst of the `until [ $n -ge $HEALTH_RETRIES ]` loop in
`scripts/deploy.sh`.  `responder k` is the status string produced by the
k-th `curl -s -o /dev/null -w "%{http_code}" "$HEALTH_URL" || echo "000"`
(a transport failure therefore already appears as `"000"`).  `fuel` is
the number of loop iterations still allowed (`HEALTH_RETRIES - n`, since
`n` increases by exactly one per failing iteration and the loop stops
when `n ≥ HEALTH_RETRIES`); `made` counts GETs performed so far; `last`
is the current value of `status_code` (`none` before the first GET).
Returns (attempts made, final `status_code`, trace of GETs). -/
def healthGo (responder : Nat → String) : Nat → Nat → Option String → Nat × Option String × List Act
  | 0, made, last => (made, last, [])
  | fuel+1, made, _ =>
      let s := responder (made + 1)
      if s = "200" then
        (made + 1, some s, [Act.getHealth (made + 1)])
      else
        let r := healthGo responder fuel (made + 1) (some s)
        (r.1, r.2.1, Act.getHealth (made + 1) :: r.2.2)

/-- The health-check loop of `scripts/deploy.sh` (lines 53–65): counter
`n` starts at 0, at most `R` attempts, early exit on status `"200"`. -/
def healthLoop (R : Nat) (responder : Nat → String) : Nat × Option String × List Act :=
  healthGo responder R 0 none

/-- Content of the `docker-compose.override.yml` heredoc written by
`scripts/deploy.sh` (lines 38–44). -/
def overrideContent (service image : String) : String :=
  "version: \"3.8\"\nservices:\n  " ++ service ++ ":\n    image: " ++ image
    ++ "\n    restart: unless-stopped\n"

/-- Environment of one `scripts/deploy.sh` invocation: its arguments and
the outcomes of the external commands it runs. -/
structure DeployEnv where
  image : String
  appDir : String
  serviceName : String
  retries : Nat
  pullOk : Bool
  upOk : Bool
  upContainers : List String
  responder : Nat → String
  pruneOk : Bool

/-- Host-side state touched by `scripts/deploy.sh`: the override manifest
file (`none` = absent) and the set of running containers. -/
structure HostState where
  overrideFile : Option String
  containers : List String
deriving DecidableEq, Repr

/-- Result of one `scripts/deploy.sh` run. -/
structure DeployOut where
  exitCode : Nat
  final : HostState
  attempts : Nat
  trace : List Act
deriving DecidableEq, Repr

/-- Shallow embedding of `scripts/deploy.sh` under `set -euo pipefail`:
usage check, `docker pull`, override write, `docker compose up -d
--remove-orphans`, health loop, diagnostics + `exit 1` on health
failure, unguarded `docker image prune -f` on success. -/
def runDeploy (env : DeployEnv) (s0 : HostState) : DeployOut :=
  if env.image = "" then
    { exitCode := 1, final := s0, attempts := 0, trace := [] }
  else if ¬ env.pullOk then
    { exitCode := 1, final := s0, attempts := 0, trace := [Act.pull env.image] }
  else
    let s1 : HostState :=
      { overrideFile := some (overrideContent env.serviceName env.image)
        containers := s0.containers }
    if ¬ env.upOk then
      { exitCode := 1, final := s1, attempts := 0
        trace := [Act.pull env.image, Act.writeOverride, Act.composeUp] }
    else
      let s2 : HostState := { s1 with containers := env.upContainers }
      let h := healthLoop env.retries env.responder
      if h.2.1 ≠ some "200" then
        { exitCode := 1, final := s2, attempts := h.1
          trace := [Act.pull env.image, Act.writeOverride, Act.composeUp]
            ++ h.2.2 ++ [Act.dumpPs, Act.dumpLogs 200] }
      else
        { exitCode := if env.pruneOk then 0 else 1, final := s2, attempts := h.1
          trace := [Act.pull env.image, Act.writeOverride, Act.composeUp]
            ++ h.2.2 ++ [Act.prune] }

/-- Recognizes the health-check GETs in a trace. -/
def isGet : Act → Bool
  | Act.getHealth _ => true
  | _ => false

/-!
## Image Publisher (`build-and-push.sh`)
-/

/-- `${GITHUB_SHA:0:7}`: the first 7 characters of the supplied commit
identifier. -/
def shaShort (s : String) : String := String.mk (s.data.take 7)

/-- Tag resolution of `build-and-push.sh` (lines 470–478):
`GITHUB_SHA` set and non-empty → its first 7 characters; else the local
`git rev-parse --short HEAD` when git is available inside a work tree;
else `date +%Y%m%d%H%M%S`.  Unset and empty `GITHUB_SHA` coincide
(`${GITHUB_SHA:-}`), so it is modelled as a plain string. -/
def resolveTag (githubSha : String) (gitAvail : Bool) (gitSha : String) (timestamp : String) : String :=
  if githubSha ≠ "" then shaShort githubSha
  else if gitAvail then gitSha
  else timestamp

/-- `tr '[:upper:]' '[:lower:]'` on one character (ASCII byte map). -/
def trLower (c : Char) : Char :=
  if 65 ≤ c.toNat ∧ c.toNat ≤ 90 then Char.ofNat (c.toNat + 32) else c

/-- POSIX `[:alnum:]` in the C locale: ASCII letters and digits. -/
def isAlnumA (c : Char) : Bool :=
  (65 ≤ c.toNat && c.toNat ≤ 90) || (97 ≤ c.toNat && c.toNat ≤ 122)
    || (48 ≤ c.toNat && c.toNat ≤ 57)

/-- `tr -c '[:alnum:]-' '-'` on one character: anything outside ASCII
alphanumerics and `-` becomes `-`. -/
def trComplement (c : Char) : Char :=
  if isAlnumA c || c = '-' then c else '-'

/-- The sanitization pipeline `S_SAFE=$(echo "$s" | tr '[:upper:]'
'[:lower:]' | tr -c '[:alnum:]-' '-')` of `build-and-push.sh`
(line 515).  `echo` appends a newline, which survives into `tr -c` and
is rewritten to `-` (so the result always ends in `-`); the command
substitution strips trailing newlines only, and none remain. -/
def sSafe (s : String) : String :=
  String.mk (((s.data ++ ['\n']).map trLower).map trComplement)

/-- Image name computed by `build-and-push.sh` (lines 504–523): a
single-service manifest yields `repo:tag` with no suffix, while a
multi-service manifest yields `repo-S_SAFE:tag` for service `s`. -/
def imageName (repo tag : String) (numServices : Nat) (s : String) : String :=
  if numServices = 1 then repo ++ ":" ++ tag
  else repo ++ "-" ++ sSafe s ++ ":" ++ tag

/-- The list of images built and pushed, in manifest order. -/
def imageList (repo tag : String) (services : List String) : List String :=
  if services.length = 1 then [repo ++ ":" ++ tag]
  else services.map (fun s => repo ++ "-" ++ sSafe s ++ ":" ++ tag)

/-- The literal placeholder token searched for by the workflow-patch
step (`__IMAGE_TAG__`), as a character list. -/
def tokChars : List Char := "__IMAGE_TAG__".data

/-- Literal-prefix test on character lists. -/
def pfxOf : List Char → List Char → Bool
  | [], _ => true
  | _ :: _, [] => false
  | a :: as, b :: bs => a = b && pfxOf as bs

/-- `grep -q "__IMAGE_TAG__"`: does the text contain the placeholder
token (as a literal substring; the token has no regex metacharacters)? -/
def containsTok : List Char → Bool
  | [] => false
  | c :: cs => pfxOf tokChars (c :: cs) || containsTok cs

/-- String-level wrapper for `containsTok`. -/
def hasTok (s : String) : Bool := containsTok s.data

/-- `sed "s/__IMAGE_TAG__/${TAG}/g"` as a left-to-right scanner:
leftmost-match, non-overlapping, the replacement text is not rescanned
(the token contains no newline, so per-line sed behaviour coincides
with whole-text scanning).  Structural recursion on a fuel bounded by
the text length, so the function evaluates by reduction. -/
def sedgAux (rep : List Char) : Nat → List Char → List Char
  | 0, l => l
  | _+1, [] => []
  | fuel+1, c :: cs =>
      if pfxOf tokChars (c :: cs) then rep ++ sedgAux rep fuel (List.drop 12 cs)
      else c :: sedgAux rep fuel cs

/-- Global replacement of `__IMAGE_TAG__` by `tag` in `s`. -/
def sedGlobal (tag s : String) : String :=
  String.mk (sedgAux tag.data s.data.length s.data)

/-- The workflow-patch step of `build-and-push.sh` (lines 558–590).
`wfArg` is the `--workflow-file` argument; `wfContent` is the target
file's content, `none` when the file does not exist.  Returns the final
file content, whether the missing-file error was logged, and whether
the missing-placeholder warning was logged.  Both conditions merely
log; neither aborts the (set -e) script, since `err`/`log` are plain
`printf`s and the `grep` is inside an `if` condition. -/
def workflowStep (tag : String) (wfArg : Option String) (wfContent : Option String) :
    Option String × Bool × Bool :=
  match wfArg with
  | none => (wfContent, false, false)
  | some _ =>
    match wfContent with
    | none => (none, true, false)
    | some c =>
      if hasTok c then (some (sedGlobal tag c), false, false)
      else (some c, false, true)

/-- Environment of one `build-and-push.sh` invocation: its environment
variables, argument, and the outcomes of the external commands. -/
structure PubEnv where
  repo : String
  username : String
  token : String
  githubSha : String
  gitAvail : Bool
  gitSha : String
  timestamp : String
  services : List String
  buildOk : Bool
  loginOk : Bool
  pushOkOf : String → Bool
  wfArg : Option String
  wfContent : Option String

/-- Result of one `build-and-push.sh` run: exit code, whether the
transient `.docker-compose.image.override.yml` exists when the process
terminates, the final workflow-file content, the two log flags of the
workflow step, and the successfully pushed images. -/
structure PubOut where
  exitCode : Nat
  overridePresent : Bool
  wfFinal : Option String
  warnedMissingWf : Bool
  warnedNoTok : Bool
  pushed : List Act

/-- Sequential `docker push` stage: pushes in order, aborting at the
first failure (`set -e`).  Returns success and the images pushed. -/
def pushAll (okOf : String → Bool) : List String → Bool × List String
  | [] => (true, [])
  | i :: is =>
      if okOf i then
        let r := pushAll okOf is
        (r.1, i :: r.2)
      else (false, [])

/-- Shallow embedding of `build-and-push.sh` under `set -euo pipefail`:
validate `DOCKERHUB_REPO` then the credentials, resolve `TAG`,
enumerate services (exit 1 when empty), create the transient override
manifest, build (`--pull --no-cache`), `docker login`, push each image
sequentially, optionally patch the workflow file, and finally
`rm -f` the override manifest.  Any failing unguarded command aborts
the script at that point, leaving the override manifest if it was
already created. -/
def runPublish (env : PubEnv) : PubOut :=
  if env.repo = "" then
    ⟨1, false, env.wfContent, false, false, []⟩
  else if env.username = "" ∨ env.token = "" then
    ⟨1, false, env.wfContent, false, false, []⟩
  else
    let tag := resolveTag env.githubSha env.gitAvail env.gitSha env.timestamp
    if env.services = [] then
      ⟨1, false, env.wfContent, false, false, []⟩
    else
      -- override manifest created from here on
      if ¬ env.buildOk then
        ⟨1, true, env.wfContent, false, false, []⟩
      else if ¬ env.loginOk then
        ⟨1, true, env.wfContent, false, false, []⟩
      else
        let p := pushAll env.pushOkOf (imageList env.repo tag env.services)
        if ¬ p.1 then
          ⟨1, true, env.wfContent, false, false, p.2.map Act.pull⟩
        else
          let w := workflowStep tag env.wfArg env.wfContent
          -- `rm -f "${OVERRIDE_FILE}"` runs, then exit 0
          ⟨0, false, w.1, w.2.1, w.2.2, p.2.map Act.pull⟩

/-!
## Strict Rollout Executor variant (two-pass supersession)
-/

/-- A container visible to `docker ps -a` in the strict variant:
whether its port list matches `grep '8080'`, whether it matches the
`--filter "ancestor=$DOCKERHUB_REPO"`, and whether the individual
`docker stop` / `docker rm -f` commands succeed on it (both are
guarded by `2>/dev/null || true` in the script). -/
structure Ctr where
  name : String
  port8080 : Bool
  ancestorOfRepo : Bool
  stopOk : Bool
  rmOk : Bool
deriving DecidableEq, Repr

/-- Environment of one strict-variant `deploy.sh` invocation. -/
structure StrictEnv where
  image : String
  containers : List Ctr
  pullOk : Bool
  upOk : Bool
  retries : Nat
  responder : Nat → String
  pruneOk : Bool

/-- Result of one strict-variant run. -/
structure StrictOut where
  exitCode : Nat
  attempts : Nat
  trace : List Act

/-- Trace of one best-effort removal pass over a list of matched
containers: each gets a `docker stop` then a `docker rm -f`, both
guarded by `|| true`, so the per-container outcomes are recorded but
never alter control flow. -/
def removalActs (cs : List Ctr) : List Act :=
  cs.flatMap (fun c => [Act.stopTry c.name c.stopOk, Act.rmTry c.name c.rmOk])

/-- The two-pass supersession step of the strict variant (lines
134–159): pass 1 over containers whose ports match `8080`; pass 2
over containers matching the ancestor filter that are still present
(a pass-1 container survives when its forced removal failed); then a
guarded `docker compose down`. -/
def supersessionActs (cs : List Ctr) : List Act :=
  removalActs (cs.filter (fun c => c.port8080))
    ++ removalActs (cs.filter (fun c => c.ancestorOfRepo && !(c.port8080 && c.rmOk)))
    ++ [Act.composeDown]

/-- Shallow embedding of the strict `deploy.sh` variant: usage check,
pull, override write, two-pass best-effort supersession, compose up,
health loop, diagnostics/exit 1 on health failure, prune on success. -/
def runStrictDeploy (env : StrictEnv) : StrictOut :=
  if env.image = "" then
    { exitCode := 1, attempts := 0, trace := [] }
  else if ¬ env.pullOk then
    { exitCode := 1, attempts := 0, trace := [Act.pull env.image] }
  else
    let pre := [Act.pull env.image, Act.writeOverride]
      ++ supersessionActs env.containers ++ [Act.composeUp]
    if ¬ env.upOk then
      { exitCode := 1, attempts := 0, trace := pre }
    else
      let h := healthLoop env.retries env.responder
      if h.2.1 ≠ some "200" then
        { exitCode := 1, attempts := h.1
          trace := pre ++ h.2.2 ++ [Act.dumpPs, Act.dumpLogs 200] }
      else
        { exitCode := if env.pruneOk then 0 else 1, attempts := h.1
          trace := pre ++ h.2.2 ++ [Act.prune] }

/-- The same strict environment with every per-container stop/remove
outcome forced to success. -/
def clearRemovalFailures (env : StrictEnv) : StrictEnv :=
  { env with containers := env.containers.map (fun c => { c with stopOk := true, rmOk := true }) }

/-!
## Spec-side definitions and general helper lemmas
-/

/-- Modelled from the claim's wording of the sanitization rule (for
comparison with `sSafe`): replace every maximal run of non-alphanumeric
characters with a single `-`.  The boolean records whether the scanner
is inside such a run. -/
def collapseRuns : Bool → List Char → List Char
  | _, [] => []
  | inRun, c :: cs =>
      if isAlnumA c then c :: collapseRuns false cs
      else if inRun then collapseRuns true cs
      else '-' :: collapseRuns true cs

/-- The claim's version of the sanitized service name: lowercase, then
collapse every non-alphanumeric run into a single `-`. -/
def specSanitize (s : String) : String :=
  String.mk (collapseRuns false (s.data.map trLower))

theorem charToNatOfNatAux (n : Nat) (h : n.isValidChar) : (Char.ofNatAux n h).toNat = n := rfl

theorem charToNatOfNat (n : Nat) (h : n.isValidChar) : (Char.ofNat n).toNat = n := by
  unfold Char.ofNat
  rw [dif_pos h]
  exact charToNatOfNatAux n h

/-- Exhausted health loop: when no attempt up to the budget returns
`"200"`, the loop performs exactly `fuel` further GETs and ends with
the status of the last one. -/
theorem healthGo_all_fail (responder : Nat → String) :
    ∀ fuel made last, (∀ k, k ≤ made + fuel → responder k ≠ "200") →
    healthGo responder fuel made last
      = (made + fuel,
         if fuel = 0 then last else some (responder (made + fuel)),
         (List.range fuel).map (fun i => Act.getHealth (made + 1 + i))) := by
  intro fuel
  induction fuel with
  | zero => intro made last _; simp [healthGo]
  | succ f ih =>
    intro made last h
    have hne : responder (made + 1) ≠ "200" := h (made + 1) (by omega)
    have ih' := ih (made + 1) (some (responder (made + 1)))
      (fun k hk => h k (by omega))
    simp only [healthGo, hne, if_false, ite_false]
    rw [ih']
    refine Prod.ext (by omega) (Prod.ext ?_ ?_)
    · by_cases hf : f = 0
      · subst hf; simp
      · simp only [hf, if_false, ite_false, Nat.succ_ne_zero]
        have : made + 1 + f = made + (f + 1) := by omega
        rw [this]
    · simp only [List.range_succ_eq_map, List.map_cons, List.map_map]
      refine List.cons_eq_cons.mpr ⟨by simp, ?_⟩
      apply List.map_congr_left
      intro i _
      simp only [Function.comp_apply]
      congr 1
      omega

/-- Early exit of the health loop: when attempt `k` is the first to
return `"200"` and the budget allows reaching it, the loop performs
exactly `k` GETs and stops with status `"200"`. -/
theorem healthGo_first_success (responder : Nat → String) :
    ∀ fuel made last k, made < k → k ≤ made + fuel →
    responder k = "200" →
    (∀ j, made < j → j < k → responder j ≠ "200") →
    healthGo responder fuel made last
      = (k, some "200",
         (List.range (k - made)).map (fun i => Act.getHealth (made + 1 + i))) := by
  intro fuel
  induction fuel with
  | zero => intro made last k h1 h2 _ _; omega
  | succ f ih =>
    intro made last k h1 h2 hk hbef
    by_cases hke : k = made + 1
    · subst hke
      simp only [healthGo, hk, if_true, ite_true]
      have hr : made + 1 - made = 1 := by omega
      rw [hr]
      have h1 : List.range 1 = [0] := rfl
      rw [h1]
      simp
    · have hne : responder (made + 1) ≠ "200" := hbef (made + 1) (by omega) (by omega)
      have ih' := ih (made + 1) (some (responder (made + 1))) k (by omega) (by omega) hk
        (fun j hj1 hj2 => hbef j (by omega) hj2)
      simp only [healthGo, hne, if_false, ite_false]
      rw [ih']
      refine Prod.ext rfl (Prod.ext rfl ?_)
      have hr : k - made = (k - (made + 1)) + 1 := by omega
      rw [hr]
      simp only [List.range_succ_eq_map, List.map_cons, List.map_map]
      refine List.cons_eq_cons.mpr ⟨by simp, ?_⟩
      apply List.map_congr_left
      intro i _
      simp only [Function.comp_apply]
      congr 1
      omega

/-- Every GET trace produced as a range map counts as all-GET. -/
theorem countP_get_range (a b : Nat) :
    ((List.range a).map (fun i => Act.getHealth (b + i))).countP isGet = a := by
  rw [List.countP_map]
  have h : ∀ x ∈ List.range a, (isGet ∘ fun i => Act.getHealth (b + i)) x = true := by
    intro x _
    rfl
  rw [List.countP_eq_length.mpr h, List.length_range]

/-- A nonempty source string keeps its first character under `take`. -/
theorem shaShort_ne_empty (s : String) (h : s ≠ "") : shaShort s ≠ "" := by
  cases s with
  | mk data =>
    cases data with
    | nil => exact absurd rfl h
    | cons c cs =>
      intro hC
      have : (String.mk (c :: cs.take 6)).data = ("" : String).data := by rw [← hC]; rfl
      simp at this

/-- When every push succeeds, the sequential push stage succeeds and
pushes every image in order. -/
theorem pushAll_all_ok (okOf : String → Bool) (h : ∀ i, okOf i = true) :
    ∀ l, pushAll okOf l = (true, l) := by
  intro l
  induction l with
  | nil => rfl
  | cons i is ih => simp [pushAll, h i, ih]

/-- `sed "s/__IMAGE_TAG__/.../g"` leaves a text without the placeholder
token untouched, for any fuel. -/
theorem sedgAux_id_of_no_tok (rep : List Char) :
    ∀ fuel l, containsTok l = false → sedgAux rep fuel l = l := by
  intro fuel
  induction fuel with
  | zero => intro l _; rfl
  | succ f ih =>
    intro l h
    cases l with
    | nil => rfl
    | cons c cs =>
      rw [containsTok, Bool.or_eq_false_iff] at h
      rw [sedgAux, if_neg (by simp [h.1]), ih cs h.2]

/-- String-level version: a token-free file is byte-for-byte unchanged
even by the replacement function itself. -/
theorem sedGlobal_id_of_no_tok (tag s : String) (h : hasTok s = false) :
    sedGlobal tag s = s := by
  unfold sedGlobal
  rw [sedgAux_id_of_no_tok tag.data s.data.length s.data h]

/-- Each character surviving the sanitization pipeline is an ASCII
lowercase letter, an ASCII digit, or `-`. -/
theorem sanitizedChar (c : Char) :
    (97 ≤ (trComplement (trLower c)).toNat ∧ (trComplement (trLower c)).toNat ≤ 122)
    ∨ (48 ≤ (trComplement (trLower c)).toNat ∧ (trComplement (trLower c)).toNat ≤ 57)
    ∨ trComplement (trLower c) = '-' := by
  by_cases hu : 65 ≤ c.toNat ∧ c.toNat ≤ 90
  · have hv : (c.toNat + 32).isValidChar := Or.inl (by omega)
    have ht : (Char.ofNat (c.toNat + 32)).toNat = c.toNat + 32 := charToNatOfNat _ hv
    have hl : trLower c = Char.ofNat (c.toNat + 32) := by rw [trLower, if_pos hu]
    have halnum : isAlnumA (trLower c) = true := by
      rw [hl]
      simp only [isAlnumA, ht, Bool.or_eq_true, Bool.and_eq_true, decide_eq_true_eq]
      omega
    have hcomp : trComplement (trLower c) = trLower c := by
      rw [trComplement, if_pos (by simp [halnum])]
    rw [hcomp, hl]
    left
    rw [ht]
    omega
  · have hl : trLower c = c := by rw [trLower, if_neg hu]
    rw [hl]
    by_cases ha : isAlnumA c = true
    · have hcomp : trComplement c = c := by rw [trComplement, if_pos (by simp [ha])]
      rw [hcomp]
      simp only [isAlnumA, Bool.or_eq_true, Bool.and_eq_true, decide_eq_true_eq] at ha
      rcases ha with (h1 | h2) | h3
      · omega
      · left; omega
      · right; left; omega
    · by_cases hd : c = '-'
      · subst hd
        have hcomp : trComplement '-' = '-' := by rw [trComplement, if_pos (by simp)]
        rw [hcomp]
        right; right; rfl
      · have hcomp : trComplement c = '-' := by
          rw [trComplement, if_neg (by simp [ha, hd])]
        rw [hcomp]
        right; right; rfl

/-!
## Claim theorems
-/

/-- C1: when every one of the `R` health-check attempts returns a status
other than `200` (transport failures appearing as `"000"`, which never
matches), the loop performs exactly `R` GET attempts and no more, and
the script then dumps the container status table and the last 200 lines
of service logs and exits non-zero. -/
theorem health_exhaustion_dumps_and_exits_nonzero (env : DeployEnv) (s0 : HostState)
    (himg : env.image ≠ "") (hpull : env.pullOk = true) (hup : env.upOk = true)
    (hR : 1 ≤ env.retries)
    (hfail : ∀ k, k ≤ env.retries → env.responder k ≠ "200") :
    (runDeploy env s0).attempts = env.retries ∧
    (runDeploy env s0).trace.countP isGet = env.retries ∧
    Act.dumpPs ∈ (runDeploy env s0).trace ∧
    Act.dumpLogs 200 ∈ (runDeploy env s0).trace ∧
    (runDeploy env s0).exitCode ≠ 0 := by
  have hl : healthLoop env.retries env.responder
      = (env.retries,
         if env.retries = 0 then none else some (env.responder env.retries),
         (List.range env.retries).map (fun i => Act.getHealth (0 + 1 + i))) := by
    unfold healthLoop
    have := healthGo_all_fail env.responder env.retries 0 none
      (fun k hk => hfail k (by omega))
    simpa using this
  rw [if_neg (by omega)] at hl
  have hne : (healthLoop env.retries env.responder).2.1 ≠ some "200" := by
    rw [hl]
    simp only [ne_eq, Option.some.injEq]
    exact hfail env.retries (le_refl _)
  simp only [runDeploy]
  rw [if_neg himg, if_neg (by simp [hpull]), if_neg (by simp [hup]), if_pos hne]
  refine ⟨by simp [hl], ?_, by simp, by simp, by simp⟩
  simp only [hl, List.countP_append]
  rw [countP_get_range env.retries (0 + 1)]
  have h1 : List.countP isGet [Act.pull env.image, Act.writeOverride, Act.composeUp] = 0 := rfl
  have h2 : List.countP isGet [Act.dumpPs, Act.dumpLogs 200] = 0 := rfl
  omega

/-- C1 witness: `R = 3` and a responder that always answers `500`
performs exactly 3 attempts, dumps diagnostics, and exits non-zero. -/
theorem health_exhaustion_witness :
    (runDeploy ⟨"u/a:v1", "/root/server", "app", 3, true, true, ["app"], fun _ => "500", true⟩
      ⟨none, []⟩).attempts = 3 ∧
    (runDeploy ⟨"u/a:v1", "/root/server", "app", 3, true, true, ["app"], fun _ => "500", true⟩
      ⟨none, []⟩).trace.countP isGet = 3 ∧
    Act.dumpPs ∈ (runDeploy ⟨"u/a:v1", "/root/server", "app", 3, true, true, ["app"], fun _ => "500", true⟩
      ⟨none, []⟩).trace ∧
    Act.dumpLogs 200 ∈ (runDeploy ⟨"u/a:v1", "/root/server", "app", 3, true, true, ["app"], fun _ => "500", true⟩
      ⟨none, []⟩).trace ∧
    (runDeploy ⟨"u/a:v1", "/root/server", "app", 3, true, true, ["app"], fun _ => "500", true⟩
      ⟨none, []⟩).exitCode ≠ 0 := by
  apply health_exhaustion_dumps_and_exits_nonzero
  · decide
  · rfl
  · rfl
  · decide
  · intro k _
    show ("500" : String) ≠ "200"
    decide

/-- C2: when the k-th attempt is the first to return HTTP 200 (within
the budget), the loop performs exactly k attempts, stops with success
immediately, no diagnostics are dumped, and the script proceeds to the
pruning step. -/
theorem health_early_exit_on_first_success (env : DeployEnv) (s0 : HostState)
    (himg : env.image ≠ "") (hpull : env.pullOk = true) (hup : env.upOk = true)
    (k : Nat) (hk1 : 1 ≤ k) (hkR : k ≤ env.retries)
    (hsucc : env.responder k = "200")
    (hbef : ∀ j, 1 ≤ j → j < k → env.responder j ≠ "200") :
    (runDeploy env s0).attempts = k ∧
    (runDeploy env s0).trace.countP isGet = k ∧
    Act.dumpPs ∉ (runDeploy env s0).trace ∧
    Act.dumpLogs 200 ∉ (runDeploy env s0).trace ∧
    Act.prune ∈ (runDeploy env s0).trace := by
  have hl : healthLoop env.retries env.responder
      = (k, some "200", (List.range (k - 0)).map (fun i => Act.getHealth (0 + 1 + i))) := by
    unfold healthLoop
    exact healthGo_first_success env.responder env.retries 0 none k (by omega) (by omega) hsucc
      (fun j hj1 hj2 => hbef j (by omega) hj2)
  have heq : (healthLoop env.retries env.responder).2.1 = some "200" := by rw [hl]
  simp only [runDeploy]
  rw [if_neg himg, if_neg (by simp [hpull]), if_neg (by simp [hup]), if_neg (by simp [heq])]
  refine ⟨by simp [hl], ?_, by simp [hl], by simp [hl], by simp⟩
  simp only [hl, List.countP_append]
  rw [countP_get_range (k - 0) (0 + 1)]
  have h1 : List.countP isGet [Act.pull env.image, Act.writeOverride, Act.composeUp] = 0 := rfl
  have h2 : List.countP isGet [Act.prune] = 0 := rfl
  omega

/-- C2 witness: `R = 3` and a responder answering `200` on the 2nd
attempt stops after exactly 2 attempts, without diagnostics. -/
theorem health_early_exit_witness :
    (runDeploy ⟨"u/a:v1", "/root/server", "app", 3, true, true, ["app"],
      (fun k => if k = 2 then "200" else "500"), true⟩ ⟨none, []⟩).attempts = 2 ∧
    (runDeploy ⟨"u/a:v1", "/root/server", "app", 3, true, true, ["app"],
      (fun k => if k = 2 then "200" else "500"), true⟩ ⟨none, []⟩).trace.countP isGet = 2 ∧
    Act.dumpPs ∉ (runDeploy ⟨"u/a:v1", "/root/server", "app", 3, true, true, ["app"],
      (fun k => if k = 2 then "200" else "500"), true⟩ ⟨none, []⟩).trace ∧
    Act.dumpLogs 200 ∉ (runDeploy ⟨"u/a:v1", "/root/server", "app", 3, true, true, ["app"],
      (fun k => if k = 2 then "200" else "500"), true⟩ ⟨none, []⟩).trace ∧
    Act.prune ∈ (runDeploy ⟨"u/a:v1", "/root/server", "app", 3, true, true, ["app"],
      (fun k => if k = 2 then "200" else "500"), true⟩ ⟨none, []⟩).trace := by
  apply health_early_exit_on_first_success _ _ (by decide) rfl rfl 2 (by decide) (by decide)
    (by decide)
  intro j h1 h2
  have hj : j = 1 := by omega
  subst hj
  decide

/-- C10: a pull failure terminates the run non-zero before the override
manifest is written; the override file and the container set are left
exactly as they were, no compose-up happens and no health attempt is
made. -/
theorem pull_failure_preserves_state (env : DeployEnv) (s0 : HostState)
    (himg : env.image ≠ "") (hpull : env.pullOk = false) :
    (runDeploy env s0).exitCode ≠ 0 ∧
    (runDeploy env s0).final = s0 ∧
    Act.writeOverride ∉ (runDeploy env s0).trace ∧
    Act.composeUp ∉ (runDeploy env s0).trace ∧
    (runDeploy env s0).attempts = 0 := by
  simp only [runDeploy]
  rw [if_neg himg, if_pos (by simp [hpull])]
  simp

/-- C10 witness. -/
theorem pull_failure_preserves_state_witness :
    (runDeploy ⟨"u/a:v1", "/root/server", "app", 15, false, true, ["app"], fun _ => "200", true⟩
      ⟨some "old", ["old-ctr"]⟩).exitCode ≠ 0 ∧
    (runDeploy ⟨"u/a:v1", "/root/server", "app", 15, false, true, ["app"], fun _ => "200", true⟩
      ⟨some "old", ["old-ctr"]⟩).final = ⟨some "old", ["old-ctr"]⟩ ∧
    Act.writeOverride ∉ (runDeploy ⟨"u/a:v1", "/root/server", "app", 15, false, true, ["app"], fun _ => "200", true⟩
      ⟨some "old", ["old-ctr"]⟩).trace ∧
    Act.composeUp ∉ (runDeploy ⟨"u/a:v1", "/root/server", "app", 15, false, true, ["app"], fun _ => "200", true⟩
      ⟨some "old", ["old-ctr"]⟩).trace ∧
    (runDeploy ⟨"u/a:v1", "/root/server", "app", 15, false, true, ["app"], fun _ => "200", true⟩
      ⟨some "old", ["old-ctr"]⟩).attempts = 0 := by
  apply pull_failure_preserves_state
  · decide
  · rfl

/-- C8 counterexample: a healthy rollout (responder always `200`) with a
failing `docker image prune -f` exits 1, not 0 — the prune is unguarded
under `set -euo pipefail`, so its failure does affect the outcome. -/
theorem prune_failure_breaks_healthy_exit_cex :
    (healthLoop 15 (fun _ => "200")).2.1 = some "200" ∧
    (runDeploy ⟨"u/a:v1", "/root/server", "app", 15, true, true, ["app"], fun _ => "200", false⟩
      ⟨none, []⟩).exitCode = 1 := by
  constructor
  · rfl
  · rfl

/-- C8 amended: on a healthy rollout the script reaches the pruning
step, and it exits 0 exactly when the prune succeeds — a prune failure
aborts with a non-zero exit because `docker image prune -f` is not
guarded under `set -euo pipefail`. -/
theorem prune_gates_healthy_exit (env : DeployEnv) (s0 : HostState)
    (himg : env.image ≠ "") (hpull : env.pullOk = true) (hup : env.upOk = true)
    (hhealthy : (healthLoop env.retries env.responder).2.1 = some "200") :
    Act.prune ∈ (runDeploy env s0).trace ∧
    ((runDeploy env s0).exitCode = 0 ↔ env.pruneOk = true) := by
  simp only [runDeploy]
  rw [if_neg himg, if_neg (by simp [hpull]), if_neg (by simp [hup]),
    if_neg (by simp [hhealthy])]
  refine ⟨by simp, ?_⟩
  by_cases hp : env.pruneOk = true
  · simp [hp]
  · simp [hp]

/-- C8 amended witness: with a succeeding prune the healthy rollout
exits 0. -/
theorem prune_gates_healthy_exit_witness :
    Act.prune ∈ (runDeploy ⟨"u/a:v1", "/root/server", "app", 15, true, true, ["app"],
      fun _ => "200", true⟩ ⟨none, []⟩).trace ∧
    ((runDeploy ⟨"u/a:v1", "/root/server", "app", 15, true, true, ["app"],
      fun _ => "200", true⟩ ⟨none, []⟩).exitCode = 0 ↔ True) := by
  have h := prune_gates_healthy_exit
    ⟨"u/a:v1", "/root/server", "app", 15, true, true, ["app"], fun _ => "200", true⟩
    ⟨none, []⟩ (by decide) rfl rfl rfl
  exact ⟨h.1, by simp [h.2]⟩

/-- C3: the resolved tag is the first 7 characters of `GITHUB_SHA` when
that is set and non-empty, else the local short commit id when git is
available, else the timestamp; exactly one source is used, and the
result is non-empty on valid inputs (git's short sha and `date` output
are non-empty strings). -/
theorem tag_resolution_priority_nonempty (githubSha : String) (gitAvail : Bool)
    (gitSha timestamp : String) (hgit : gitSha ≠ "") (hts : timestamp ≠ "") :
    (githubSha ≠ "" →
      resolveTag githubSha gitAvail gitSha timestamp = shaShort githubSha) ∧
    (githubSha = "" → gitAvail = true →
      resolveTag githubSha gitAvail gitSha timestamp = gitSha) ∧
    (githubSha = "" → gitAvail = false →
      resolveTag githubSha gitAvail gitSha timestamp = timestamp) ∧
    resolveTag githubSha gitAvail gitSha timestamp ≠ "" := by
  refine ⟨?_, ?_, ?_, ?_⟩
  · intro h
    rw [resolveTag, if_pos h]
  · intro h hg
    rw [resolveTag, if_neg (by simp [h]), if_pos hg]
  · intro h hg
    rw [resolveTag, if_neg (by simp [h]), if_neg (by simp [hg])]
  · by_cases h : githubSha = ""
    · rw [resolveTag, if_neg (by simp [h])]
      by_cases hg : gitAvail = true
      · rw [if_pos hg]; exact hgit
      · rw [if_neg hg]; exact hts
    · rw [resolveTag, if_pos h]
      exact shaShort_ne_empty githubSha h

/-- C3 witness: with all three sources available the external commit id
wins, truncated to 7 characters; without any commit id the timestamp is
used. -/
theorem tag_resolution_witness :
    resolveTag "abcdef0123456789" true "live999" "20251012120000" = shaShort "abcdef0123456789" ∧
    shaShort "abcdef0123456789" = "abcdef0" ∧
    resolveTag "" false "live999" "20251012120000" = "20251012120000" ∧
    resolveTag "abcdef0123456789" true "live999" "20251012120000" ≠ "" := by
  have h1 := tag_resolution_priority_nonempty "abcdef0123456789" true "live999" "20251012120000"
    (by decide) (by decide)
  have h2 := tag_resolution_priority_nonempty "" false "live999" "20251012120000"
    (by decide) (by decide)
  exact ⟨h1.1 (by decide), by decide, h2.2.2.1 rfl rfl, h1.2.2.2⟩

/-- C4 counterexample: the code's sanitization does not collapse runs of
non-alphanumeric characters into a single `-` (each character becomes
its own `-`), and the newline appended by `echo` becomes a trailing
`-`; so for the multi-service name `a__b` the computed reference is
`u/r-a--b-:v1`, not the claim's `u/r-a-b:v1`. -/
theorem sanitize_collapse_claim_cex :
    sSafe "a__b" = "a--b-" ∧
    specSanitize "a__b" = "a-b" ∧
    imageName "u/r" "v1" 2 "a__b" = "u/r-a--b-:v1" ∧
    imageName "u/r" "v1" 2 "a__b" ≠ "u/r-" ++ specSanitize "a__b" ++ ":v1" := by
  refine ⟨by decide, by decide, by decide, by decide⟩

/-- C4 amended: a single-service manifest yields `repo:tag` with no
suffix; with more than one service each reference is
`repo-S_SAFE(s):tag`, where `S_SAFE` lowercases and replaces each
non-alphanumeric character other than `-` with its own `-` and ends
with one extra `-` coming from the echoed newline; every character of
the suffix is an ASCII lowercase letter, a digit, or `-`. -/
theorem image_naming_sanitized_amended (repo tag : String) (numServices : Nat) (s : String) :
    (numServices = 1 → imageName repo tag numServices s = repo ++ ":" ++ tag) ∧
    (1 < numServices →
      imageName repo tag numServices s = repo ++ "-" ++ sSafe s ++ ":" ++ tag) ∧
    (∀ c ∈ (sSafe s).data,
      (97 ≤ c.toNat ∧ c.toNat ≤ 122) ∨ (48 ≤ c.toNat ∧ c.toNat ≤ 57) ∨ c = '-') := by
  refine ⟨?_, ?_, ?_⟩
  · intro h
    rw [imageName, if_pos h]
  · intro h
    rw [imageName, if_neg (by omega)]
  · intro c hc
    simp only [sSafe, List.map_map, List.mem_map] at hc
    obtain ⟨a, _, ha⟩ := hc
    rw [← ha]
    exact sanitizedChar a

/-- C4 amended witness: concrete single- and multi-service references. -/
theorem image_naming_sanitized_witness :
    imageName "u/r" "v1" 1 "app" = "u/r:v1" ∧
    imageName "u/r" "v1" 2 "Web_App" = "u/r-web-app-:v1" := by
  constructor
  · have h := (image_naming_sanitized_amended "u/r" "v1" 1 "app").1 rfl
    rw [h]
    decide
  · have h := (image_naming_sanitized_amended "u/r" "v1" 2 "Web_App").2.1 (by omega)
    rw [h]
    decide

/-- C5 counterexample: a fully successful publish run whose
`--workflow-file` names a non-existent file logs the error and
continues — the run exits 0, it does not abort. -/
theorem missing_workflow_file_exit0_cex :
    (runPublish ⟨"u/r", "user", "tok", "abcdef0123", false, "", "", ["app"],
      true, true, (fun _ => true), some ".github/workflows/deploy.yml", none⟩).exitCode = 0 ∧
    (runPublish ⟨"u/r", "user", "tok", "abcdef0123", false, "", "", ["app"],
      true, true, (fun _ => true), some ".github/workflows/deploy.yml", none⟩).warnedMissingWf = true := by
  refine ⟨rfl, rfl⟩

/-- C5 amended: when the workflow description file path is specified
but the file does not exist, the Image Publisher logs the missing-file
error, skips the workflow update, and continues; with every other step
succeeding the run still removes its override manifest and exits 0. -/
theorem missing_workflow_file_nonfatal (env : PubEnv)
    (hrepo : env.repo ≠ "") (huser : env.username ≠ "") (htok : env.token ≠ "")
    (hsvc : env.services ≠ []) (hbuild : env.buildOk = true) (hlogin : env.loginOk = true)
    (hpush : ∀ i, env.pushOkOf i = true)
    (p : String) (hwf : env.wfArg = some p) (hmiss : env.wfContent = none) :
    (runPublish env).exitCode = 0 ∧
    (runPublish env).warnedMissingWf = true ∧
    (runPublish env).overridePresent = false := by
  simp only [runPublish]
  rw [if_neg hrepo, if_neg (by simp [huser, htok]), if_neg hsvc,
    if_neg (by simp [hbuild]), if_neg (by simp [hlogin]),
    pushAll_all_ok env.pushOkOf hpush, if_neg (by simp)]
  simp [workflowStep, hwf, hmiss]

/-- C5 amended witness. -/
theorem missing_workflow_file_nonfatal_witness :
    (runPublish ⟨"u/r", "user", "tok", "abcdef0123", false, "", "", ["app"],
      true, true, (fun _ => true), some "wf.yml", none⟩).exitCode = 0 ∧
    (runPublish ⟨"u/r", "user", "tok", "abcdef0123", false, "", "", ["app"],
      true, true, (fun _ => true), some "wf.yml", none⟩).warnedMissingWf = true ∧
    (runPublish ⟨"u/r", "user", "tok", "abcdef0123", false, "", "", ["app"],
      true, true, (fun _ => true), some "wf.yml", none⟩).overridePresent = false := by
  apply missing_workflow_file_nonfatal _ (by decide) (by decide) (by decide) (by decide)
    rfl rfl (fun i => rfl) "wf.yml" rfl rfl

/-- C6 counterexample: a run whose build step fails aborts under
`set -e` before the end-of-script cleanup, exiting 1 with the transient
override manifest still present. -/
theorem override_left_behind_on_build_failure_cex :
    (runPublish ⟨"u/r", "user", "tok", "abcdef0123", false, "", "", ["app"],
      false, true, (fun _ => true), none, none⟩).exitCode = 1 ∧
    (runPublish ⟨"u/r", "user", "tok", "abcdef0123", false, "", "", ["app"],
      false, true, (fun _ => true), none, none⟩).overridePresent = true := by
  refine ⟨rfl, rfl⟩

/-- C6 amended: the transient tagging override manifest is removed by
the end of every successful run (exit 0 implies the file is gone); a
run aborted by a failure between its creation and the cleanup (build,
login, or push) exits non-zero with the file left behind, since the
script installs no trap. -/
theorem override_removed_on_successful_run (env : PubEnv)
    (h : (runPublish env).exitCode = 0) :
    (runPublish env).overridePresent = false := by
  simp only [runPublish] at h ⊢
  split_ifs at h ⊢
  simp_all

/-- C6 amended witness: a fully successful run ends with the override
manifest absent. -/
theorem override_removed_on_successful_run_witness :
    (runPublish ⟨"u/r", "user", "tok", "abcdef0123", false, "", "", ["app"],
      true, true, (fun _ => true), none, none⟩).overridePresent = false :=
  override_removed_on_successful_run
    ⟨"u/r", "user", "tok", "abcdef0123", false, "", "", ["app"],
      true, true, (fun _ => true), none, none⟩ rfl

/-- C9: for an existing target file, the workflow-patch step replaces
every occurrence of the literal placeholder `__IMAGE_TAG__` with the
resolved tag when the token is present (the `sed s/…/…/g` global
replacement), and leaves the content byte-for-byte unchanged — logging
only the warning — when the token is absent (in which case even the
replacement function itself is the identity). -/
theorem workflow_patch_token_behavior (tag p c : String) :
    (hasTok c = true →
      workflowStep tag (some p) (some c) = (some (sedGlobal tag c), false, false)) ∧
    (hasTok c = false →
      workflowStep tag (some p) (some c) = (some c, false, true) ∧
      sedGlobal tag c = c) := by
  constructor
  · intro h
    simp [workflowStep, h]
  · intro h
    refine ⟨by simp [workflowStep, h], sedGlobal_id_of_no_tok tag c h⟩

/-- C9 witness: a file with two occurrences of the token has both
replaced; a token-free file is returned unchanged with the warning. -/
theorem workflow_patch_token_behavior_witness :
    hasTok "a: __IMAGE_TAG__\nb: __IMAGE_TAG__\n" = true ∧
    workflowStep "abc1234" (some "wf.yml") (some "a: __IMAGE_TAG__\nb: __IMAGE_TAG__\n")
      = (some "a: abc1234\nb: abc1234\n", false, false) ∧
    workflowStep "abc1234" (some "wf.yml") (some "tags: latest\n")
      = (some "tags: latest\n", false, true) := by
  refine ⟨rfl, ?_, ?_⟩
  · have h := (workflow_patch_token_behavior "abc1234" "wf.yml"
      "a: __IMAGE_TAG__\nb: __IMAGE_TAG__\n").1 rfl
    rw [h]
    decide
  · exact ((workflow_patch_token_behavior "abc1234" "wf.yml" "tags: latest\n").2 rfl).1

/-- C7: in the strict supersession step every individual container
stop/removal is guarded, so no combination of per-container failures
prevents the rollout from reaching the `docker compose up` start step,
and the run's exit code is identical to the one obtained when every
removal succeeds. -/
theorem supersession_failures_never_abort (env : StrictEnv)
    (himg : env.image ≠ "") (hpull : env.pullOk = true) :
    Act.composeUp ∈ (runStrictDeploy env).trace ∧
    (runStrictDeploy env).exitCode = (runStrictDeploy (clearRemovalFailures env)).exitCode := by
  have himg2 : (clearRemovalFailures env).image ≠ "" := himg
  have hup2 : (clearRemovalFailures env).upOk = env.upOk := rfl
  constructor
  · simp only [runStrictDeploy]
    rw [if_neg himg, if_neg (by simp [hpull])]
    by_cases hu : env.upOk = true
    · rw [if_neg (by simp [hu])]
      by_cases hh : (healthLoop env.retries env.responder).2.1 ≠ some "200"
      · rw [if_pos hh]
        simp
      · rw [if_neg hh]
        simp
    · rw [if_pos (by simp [hu])]
      simp
  · by_cases hu : env.upOk = true
    · by_cases hh : (healthLoop env.retries env.responder).2.1 = some "200"
      · simp [runStrictDeploy, clearRemovalFailures, himg, hpull, hu, hh]
      · simp [runStrictDeploy, clearRemovalFailures, himg, hpull, hu, hh]
    · simp [runStrictDeploy, clearRemovalFailures, himg, hpull, hu]

/-- C7 witness: with one failing stop and one failing removal among the
matched containers, compose-up is still reached and the exit code
matches the all-removals-succeed run. -/
theorem supersession_failures_never_abort_witness :
    Act.composeUp ∈ (runStrictDeploy ⟨"u/r:v1",
      [⟨"old-app", true, true, false, false⟩, ⟨"sidecar", false, true, true, false⟩],
      true, true, 15, (fun _ => "200"), true⟩).trace ∧
    (runStrictDeploy ⟨"u/r:v1",
      [⟨"old-app", true, true, false, false⟩, ⟨"sidecar", false, true, true, false⟩],
      true, true, 15, (fun _ => "200"), true⟩).exitCode
      = (runStrictDeploy (clearRemovalFailures ⟨"u/r:v1",
          [⟨"old-app", true, true, false, false⟩, ⟨"sidecar", false, true, true, false⟩],
          true, true, 15, (fun _ => "200"), true⟩)).exitCode := by
  apply supersession_failures_never_abort
  · decide
  · rfl
